import Mathlib

/-!
# Verification of the HypoxRayMarcher core pipeline

Shallow embedding of the repository's two source files,
`src/sources/geometry.cpp` (per-primitive ray intersection) and
`src/sources/HypoxRayTracer.cpp` (VPL radiance evaluation and the render
loop), together with proofs settling the frozen claims about them.

Modelling conventions:
* C++ `float` arithmetic is idealised as exact real arithmetic (`ℝ`);
  `Eigen::Vec3f` becomes a record of three reals, `v.normalized()` becomes
  division by `Real.sqrt (v ⬝ v)`.  One claim (about the Ground plane and
  division by zero) is specifically about IEEE-754 infinities, and for it a
  small IEEE-style value type with `±∞`/`NaN` is used instead.
* The mutable out-parameter `Interaction&` becomes explicit state passing:
  every `intersect` returns `Bool × Interaction`, the second component
  being the (possibly updated) hit record.
* Classes whose member-function bodies are not part of the repository
  snapshot (`Ray` accessors/constructor, `Scene`, `Camera`, `Material`)
  are modelled from the spec; each such definition carries a
  `Modelled from the spec:` doc comment.
-/

noncomputable section

namespace HypoxRM

/-- Real-valued 3-vector, the embedding of `Eigen::Vec3f`. -/
structure Vec3 where
  x : ℝ
  y : ℝ
  z : ℝ
deriving DecidableEq

namespace Vec3

/-- Componentwise sum, `Eigen` `operator+`. -/
def add (u v : Vec3) : Vec3 := ⟨u.x + v.x, u.y + v.y, u.z + v.z⟩

/-- Componentwise difference, `Eigen` `operator-`. -/
def sub (u v : Vec3) : Vec3 := ⟨u.x - v.x, u.y - v.y, u.z - v.z⟩

/-- Scalar multiple, `Eigen` `scalar * vector`. -/
def smul (c : ℝ) (v : Vec3) : Vec3 := ⟨c * v.x, c * v.y, c * v.z⟩

/-- Componentwise negation, `Eigen` unary `operator-`. -/
def neg (v : Vec3) : Vec3 := ⟨-v.x, -v.y, -v.z⟩

/-- Dot product, `Eigen` `u.dot(v)`. -/
def dot (u v : Vec3) : ℝ := u.x * v.x + u.y * v.y + u.z * v.z

/-- Cross product, `Eigen` `u.cross(v)`. -/
def cross (u v : Vec3) : Vec3 :=
  ⟨u.y * v.z - u.z * v.y, u.z * v.x - u.x * v.z, u.x * v.y - u.y * v.x⟩

/-- Componentwise (Hadamard) product, `Eigen` `u.cwiseProduct(v)`. -/
def cwiseProduct (u v : Vec3) : Vec3 := ⟨u.x * v.x, u.y * v.y, u.z * v.z⟩

/-- Right scalar multiple, `Eigen` `vector * scalar`. -/
def mulScalar (v : Vec3) (c : ℝ) : Vec3 := ⟨v.x * c, v.y * c, v.z * c⟩

/-- Scalar division, `Eigen` `vector / scalar`. -/
def divScalar (v : Vec3) (c : ℝ) : Vec3 := ⟨v.x / c, v.y / c, v.z / c⟩

/-- Euclidean norm, `Eigen` `v.norm()`. -/
def norm (v : Vec3) : ℝ := Real.sqrt (v.dot v)

/-- Unit vector in the direction of `v`, `Eigen` `v.normalized()`
(idealised: division of a zero norm yields the zero vector rather than
IEEE `NaN`s; all statements about `normalized` assume a nonzero input). -/
def normalized (v : Vec3) : Vec3 := smul (1 / v.norm) v

/-- The zero vector. -/
def zero : Vec3 := ⟨0, 0, 0⟩

/-- Sum of a list of vectors (used by the specification-side
restatements of the accumulation loops). -/
def vecSum (l : List Vec3) : Vec3 := l.foldr add zero

end Vec3

/-- Modelled from the spec: a `Ray` is "an origin, a normalized direction,
and a valid parametric interval [tMin, tMax]" (§3); the class body is not
part of the repository snapshot.  The accessors `getOrigin`, `getDirection`,
`getTMin`, `getTMax` are field projections, and the spec notes the
direction is "not guaranteed re-normalized by caller", so the constructor
stores origin and direction exactly as passed. -/
structure Ray where
  origin : Vec3
  direction : Vec3
  tMin : ℝ
  tMax : ℝ

/-- Modelled from the spec: a `Ray` "produces a 3D point for a given
parameter t" (§2); `ray(t)` is the standard parametric point
`origin + t * direction`. -/
def Ray.at (r : Ray) (t : ℝ) : Vec3 := r.origin.add (Vec3.smul t r.direction)

/-- Modelled from the spec: "tMin defaults near zero, tMax near infinity"
(§3).  The exact default values are not in the snapshot; fixed
representative values are used (no claim depends on them — the only ray
built with defaulted bounds is the shadow ray, which is consumed by the
abstract `isShadowed`). -/
def rayDefaultTMin : ℝ := 1 / 100000

/-- Modelled from the spec: default for `tMax`, "near infinity" (§3). -/
def rayDefaultTMax : ℝ := 100000

/-- Modelled from the spec: the two-argument `Ray` constructor used for
shadow rays stores the given origin and direction and the defaulted
parametric interval. -/
def Ray.mk2 (o d : Vec3) : Ray := ⟨o, d, rayDefaultTMin, rayDefaultTMax⟩

/-- The hit-kind discriminator `Interaction::InterType`. -/
inductive InterType where
  | GEOMETRY
  | LIGHT
  | NONE
deriving DecidableEq

/-- Resolved material response: ambient/diffuse/specular reflectance and a
shininess exponent, as read from `interaction.matmodel` in
`HypoxRayTracer.cpp` (fields `Ambient`, `Diffuse`, `Specular`,
`Shininess`). -/
structure MatModel where
  Ambient : Vec3
  Diffuse : Vec3
  Specular : Vec3
  Shininess : ℝ

/-- The hit record `Interaction`: distance, world position, normal,
resolved material response and the hit-kind discriminator. -/
structure Interaction where
  distance : ℝ
  position : Vec3
  normal : Vec3
  matmodel : MatModel
  type : InterType

/-- Modelled from the spec: the material model is an opaque collaborator
"given an Interaction with geometric fields populated, returns
ambient/diffuse/specular reflectance … and a shininess exponent" (§6);
its implementation is outside the snapshot, so it is an abstract
function. -/
structure Material where
  evaluate : Interaction → MatModel

/-! ## Triangle (geometry.cpp lines 7–27) -/

/-- Structure `Triangle`: three vertices, a precomputed face normal, a material
reference (spec §3). -/
structure Triangle where
  v0 : Vec3
  v1 : Vec3
  v2 : Vec3
  normal : Vec3
  material : Material

namespace Triangle

/-- Embedding of `Triangle::intersect`, from from `geometry.cpp` lines 7–27
(Möller–Trumbore).  The mutable `Interaction&` out-parameter is passed in
and the (possibly updated) record returned alongside the `bool`. -/
def intersect (tri : Triangle) (ray : Ray) (interaction : Interaction) :
    Bool × Interaction :=
  let o := ray.origin
  let d := ray.direction
  let tmin := ray.tMin
  let e1 := tri.v1.sub tri.v0
  let e2 := tri.v2.sub tri.v0
  let s := o.sub tri.v0
  let s1 := d.cross e2
  let s2 := s.cross e1
  let ans := Vec3.smul (1 / s1.dot e1) ⟨s2.dot e2, s1.dot s, s2.dot d⟩
  let t := ans.x
  let u := ans.y
  let v := ans.z
  if t ≥ tmin ∧ u ≥ 0 ∧ v ≥ 0 ∧ u + v ≤ 1 then
    let i1 : Interaction :=
      { interaction with
        distance := t
        position := ray.at t
        normal := tri.normal.normalized
        type := InterType.GEOMETRY }
    (true, { i1 with matmodel := tri.material.evaluate i1 })
  else
    (false, interaction)

end Triangle

/-! ## Rectangle (geometry.cpp lines 29–55) -/

/-- Structure `Rectangle`: center position, in-plane tangent, normal, 2D extent,
material reference (spec §3).  `size` is the `(width, height)` pair. -/
structure Rectangle where
  position : Vec3
  size : ℝ × ℝ
  normal : Vec3
  tangent : Vec3
  material : Material

namespace Rectangle

/-- Embedding of `Rectangle::intersect`, from `geometry.cpp` lines 29–55.
`EPS` is a global constant declared in a header that is not part of the
snapshot (Modelled from the spec: "a small epsilon", §4.1); it is passed
as an explicit parameter. -/
def intersect (EPS : ℝ) (rect : Rectangle) (ray : Ray)
    (interaction : Interaction) : Bool × Interaction :=
  let o := ray.origin
  let d := ray.direction
  let width := rect.size.1
  let height := rect.size.2
  if |d.dot rect.normal| ≤ EPS then
    (false, interaction)
  else
    let t := (rect.position.sub o).dot rect.normal / d.dot rect.normal
    let intersect_point := ray.at t
    let delta_vec := intersect_point.sub rect.position
    let y_tangent := rect.normal.cross rect.tangent
    let dw := delta_vec.dot rect.tangent.normalized
    let dh := delta_vec.dot y_tangent.normalized
    if t ≥ 0 ∧ -width / 2 ≤ dw ∧ dw ≤ width / 2 ∧ -height / 2 ≤ dh ∧ dh ≤ height / 2 then
      let i1 : Interaction :=
        { interaction with
          distance := t
          position := intersect_point
          normal := rect.normal.normalized
          type := InterType.GEOMETRY }
      (true, { i1 with matmodel := rect.material.evaluate i1 })
    else
      (false, interaction)

end Rectangle

/-! ## Matrices and affine maps for the Ellipsoid (geometry.cpp lines 58–133)

The source builds 4×4 homogeneous matrices `T`, `R`, `S`, all of the shape
`[A t; 0 0 0 1]`, multiplies them, inverts the product with Eigen's
`M.inverse()`, and applies the result to homogeneous points (w = 1) and
vectors (w = 0).  Such matrices are represented here by their 3×3 linear
block together with the translation column; composition, inversion (via
the exact adjugate-over-determinant formula, which agrees with Eigen's
`inverse()` on invertible input) and application to points/vectors are the
standard block formulas for this shape of matrix. -/

/-- A 3×3 real matrix, row-major fields. -/
structure Mat3 where
  m00 : ℝ
  m01 : ℝ
  m02 : ℝ
  m10 : ℝ
  m11 : ℝ
  m12 : ℝ
  m20 : ℝ
  m21 : ℝ
  m22 : ℝ

namespace Mat3

/-- Matrix–vector product. -/
def mulVec (A : Mat3) (v : Vec3) : Vec3 :=
  ⟨A.m00 * v.x + A.m01 * v.y + A.m02 * v.z,
   A.m10 * v.x + A.m11 * v.y + A.m12 * v.z,
   A.m20 * v.x + A.m21 * v.y + A.m22 * v.z⟩

/-- Matrix product. -/
def mul (A B : Mat3) : Mat3 :=
  ⟨A.m00 * B.m00 + A.m01 * B.m10 + A.m02 * B.m20,
   A.m00 * B.m01 + A.m01 * B.m11 + A.m02 * B.m21,
   A.m00 * B.m02 + A.m01 * B.m12 + A.m02 * B.m22,
   A.m10 * B.m00 + A.m11 * B.m10 + A.m12 * B.m20,
   A.m10 * B.m01 + A.m11 * B.m11 + A.m12 * B.m21,
   A.m10 * B.m02 + A.m11 * B.m12 + A.m12 * B.m22,
   A.m20 * B.m00 + A.m21 * B.m10 + A.m22 * B.m20,
   A.m20 * B.m01 + A.m21 * B.m11 + A.m22 * B.m21,
   A.m20 * B.m02 + A.m21 * B.m12 + A.m22 * B.m22⟩

/-- Transpose. -/
def transpose (A : Mat3) : Mat3 :=
  ⟨A.m00, A.m10, A.m20, A.m01, A.m11, A.m21, A.m02, A.m12, A.m22⟩

/-- Determinant. -/
def det (A : Mat3) : ℝ :=
  A.m00 * (A.m11 * A.m22 - A.m12 * A.m21)
    - A.m01 * (A.m10 * A.m22 - A.m12 * A.m20)
    + A.m02 * (A.m10 * A.m21 - A.m11 * A.m20)

/-- Exact inverse (adjugate divided by determinant); agrees with Eigen's
`inverse()` whenever the matrix is invertible. -/
def inv (A : Mat3) : Mat3 :=
  let d := A.det
  ⟨(A.m11 * A.m22 - A.m12 * A.m21) / d,
   (A.m02 * A.m21 - A.m01 * A.m22) / d,
   (A.m01 * A.m12 - A.m02 * A.m11) / d,
   (A.m12 * A.m20 - A.m10 * A.m22) / d,
   (A.m00 * A.m22 - A.m02 * A.m20) / d,
   (A.m02 * A.m10 - A.m00 * A.m12) / d,
   (A.m10 * A.m21 - A.m11 * A.m20) / d,
   (A.m01 * A.m20 - A.m00 * A.m21) / d,
   (A.m00 * A.m11 - A.m01 * A.m10) / d⟩

/-- Identity matrix. -/
def id : Mat3 := ⟨1, 0, 0, 0, 1, 0, 0, 0, 1⟩

end Mat3

/-- A 4×4 homogeneous matrix of the shape `[A t; 0 0 0 1]`, represented
by its linear block `lin` and translation column `tr`. -/
structure Aff where
  lin : Mat3
  tr : Vec3

namespace Aff

/-- The 4×4 product of two matrices of this shape (block formula). -/
def comp (A B : Aff) : Aff := ⟨A.lin.mul B.lin, (A.lin.mulVec B.tr).add A.tr⟩

/-- The 4×4 inverse (block formula `[A⁻¹ −A⁻¹t; 0 0 0 1]`); agrees with
Eigen's `M.inverse()` whenever the linear block is invertible. -/
def inv (A : Aff) : Aff := ⟨A.lin.inv, (A.lin.inv.mulVec A.tr).neg⟩

/-- Application to a homogeneous point `(x, y, z, 1)`. -/
def applyPoint (A : Aff) (v : Vec3) : Vec3 := (A.lin.mulVec v).add A.tr

/-- Application to a homogeneous vector `(x, y, z, 0)`. -/
def applyVec (A : Aff) (v : Vec3) : Vec3 := A.lin.mulVec v

end Aff

/-! ## Ellipsoid (geometry.cpp lines 58–133) -/

/-- Structure `Ellipsoid`: center `p` and axis vectors `a`, `b`, `c` defining the
affine image of the unit sphere, plus a material reference (spec §3). -/
structure Ellipsoid where
  p : Vec3
  a : Vec3
  b : Vec3
  c : Vec3
  material : Material

namespace Ellipsoid

/-- The translation matrix `T` (geometry.cpp lines 61–64). -/
def Tmat (e : Ellipsoid) : Aff := ⟨Mat3.id, e.p⟩

/-- The rotation-like matrix `R` whose columns are the normalized axes
(geometry.cpp lines 65–69). -/
def Rmat (e : Ellipsoid) : Aff :=
  let na := e.a.normalized
  let nb := e.b.normalized
  let nc := e.c.normalized
  ⟨⟨na.x, nb.x, nc.x, na.y, nb.y, nc.y, na.z, nb.z, nc.z⟩, Vec3.zero⟩

/-- The scale matrix `S` with the axis norms on the diagonal
(geometry.cpp lines 70–73). -/
def Smat (e : Ellipsoid) : Aff :=
  ⟨⟨e.a.norm, 0, 0, 0, e.b.norm, 0, 0, 0, e.c.norm⟩, Vec3.zero⟩

/-- The matrix `M = T * R * S` (geometry.cpp line 74). -/
def M (e : Ellipsoid) : Aff := (e.Tmat.comp e.Rmat).comp e.Smat

/-- The matrix `M_inv = M.inverse()` (geometry.cpp line 75). -/
def Minv (e : Ellipsoid) : Aff := e.M.inv

/-- The ray origin mapped into unit-sphere space (w = 1 transform,
geometry.cpp lines 77–83). -/
def transformedOrigin (e : Ellipsoid) (ray : Ray) : Vec3 :=
  e.Minv.applyPoint ray.origin

/-- The ray direction mapped into unit-sphere space (w = 0 transform,
geometry.cpp lines 77–83). -/
def transformedDir (e : Ellipsoid) (ray : Ray) : Vec3 :=
  e.Minv.applyVec ray.direction

/-- Quadratic coefficient `a = d·d` in transformed space
(geometry.cpp line 88; the unit-sphere radius is 1). -/
def quadA (e : Ellipsoid) (ray : Ray) : ℝ :=
  (e.transformedDir ray).dot (e.transformedDir ray)

/-- Quadratic coefficient `b = 2 (o·d)` (geometry.cpp line 89). -/
def quadB (e : Ellipsoid) (ray : Ray) : ℝ :=
  2 * (e.transformedOrigin ray).dot (e.transformedDir ray)

/-- Quadratic coefficient `c = o·o − radius²` with `radius = 1`
(geometry.cpp lines 87, 90). -/
def quadC (e : Ellipsoid) (ray : Ray) : ℝ :=
  (e.transformedOrigin ray).dot (e.transformedOrigin ray) - 1 * 1

/-- Discriminant `delta = b² − 4ac` (geometry.cpp line 91). -/
def delta (e : Ellipsoid) (ray : Ray) : ℝ :=
  e.quadB ray * e.quadB ray - 4 * e.quadA ray * e.quadC ray

/-- Root `t1 = (−b − √delta) / (2a)` (geometry.cpp line 94). -/
def t1 (e : Ellipsoid) (ray : Ray) : ℝ :=
  (-e.quadB ray - Real.sqrt (e.delta ray)) / (2 * e.quadA ray)

/-- Root `t2 = (−b + √delta) / (2a)` (geometry.cpp line 94). -/
def t2 (e : Ellipsoid) (ray : Ray) : ℝ :=
  (-e.quadB ray + Real.sqrt (e.delta ray)) / (2 * e.quadA ray)

/-- Root selection (geometry.cpp lines 95–107): the smaller root when
both are positive, else the single positive root, else none. -/
def selectT (e : Ellipsoid) (ray : Ray) : Option ℝ :=
  if e.t1 ray > 0 ∧ e.t2 ray > 0 then some (min (e.t1 ray) (e.t2 ray))
  else if e.t1 ray > 0 then some (e.t1 ray)
  else if e.t2 ray > 0 then some (e.t2 ray)
  else none

/-- The un-normalized hit normal `M_3.inverse().transpose() * position`
with `position = o' + t d'` in transformed space
(geometry.cpp lines 113–121). -/
def rawNormal (e : Ellipsoid) (ray : Ray) (t : ℝ) : Vec3 :=
  (e.M.lin.inv.transpose).mulVec
    ((e.transformedOrigin ray).add (Vec3.smul t (e.transformedDir ray)))

/-- Embedding of `Ellipsoid::intersect`, from `geometry.cpp` lines 58–133. -/
def intersect (e : Ellipsoid) (ray : Ray) (interaction : Interaction) :
    Bool × Interaction :=
  if e.delta ray > 0 then
    (e.selectT ray).elim (false, interaction) fun t =>
      if t < ray.tMin then
        (false, interaction)
      else
        let i1 : Interaction :=
          { interaction with
            distance := t
            position := ray.at t
            normal := (e.rawNormal ray t).normalized
            type := InterType.GEOMETRY }
        (true, { i1 with matmodel := e.material.evaluate i1 })
  else
    (false, interaction)

end Ellipsoid

/-! ## Ground (geometry.cpp lines 135–148) -/

/-- Structure `Ground`: an infinite plane at height `z` with a material reference
(spec §3). -/
structure Ground where
  z : ℝ
  material : Material

namespace Ground

/-- Embedding of `Ground::intersect`, from from `geometry.cpp` lines 135–148,
in the exact-real idealisation (see `Ground.intersectFP` for the
IEEE-faithful model of the division by `direction.z`). -/
def intersect (g : Ground) (ray : Ray) (interaction : Interaction) :
    Bool × Interaction :=
  let t := (g.z - ray.origin.z) / ray.direction.z
  if t < ray.tMin then
    (false, interaction)
  else
    let i1 : Interaction :=
      { interaction with
        distance := t
        position := ray.at t
        normal := ⟨0, 0, 1⟩
        type := InterType.GEOMETRY }
    (true, { i1 with matmodel := g.material.evaluate i1 })

end Ground

/-! ## IEEE-style model of Ground::intersect's accept/reject decision

`Ground::intersect` divides by `direction.z` with no guard; whether a
horizontal ray is rejected therefore hinges on IEEE-754 semantics of
`x / 0.0f` and of comparisons against `±inf`/`NaN`, which the exact-real
idealisation cannot express.  This model keeps float values that arise on
this code path: finite values are exact rationals (the subtraction and
division are the only arithmetic, and rounding is irrelevant to the
sign/NaN question), and `x / 0` follows IEEE: `+inf` for positive `x`,
`-inf` for negative `x`, `NaN` for `0 / 0` (the divisor `0.0f` is the
positive zero, which is the value of a float literal `0` z-component). -/

/-- An IEEE-style float value: a finite (exact) rational, `+inf`, `-inf`
or `NaN`. -/
inductive FVal where
  | fin (q : ℚ)
  | pinf
  | ninf
  | nan
deriving DecidableEq

/-- IEEE division of two finite values. -/
def fdivIEEE (a b : ℚ) : FVal :=
  if b = 0 then
    if a > 0 then FVal.pinf else if a < 0 then FVal.ninf else FVal.nan
  else
    FVal.fin (a / b)

/-- The IEEE `<` comparison: any comparison with `NaN` is false;
`-inf` is below and `+inf` above every finite value. -/
def fltF : FVal → FVal → Bool
  | FVal.nan, _ => false
  | _, FVal.nan => false
  | FVal.ninf, FVal.ninf => false
  | FVal.ninf, _ => true
  | FVal.pinf, _ => false
  | FVal.fin _, FVal.ninf => false
  | FVal.fin _, FVal.pinf => true
  | FVal.fin a, FVal.fin b => decide (a < b)

/-- The accept/reject decision of `Ground::intersect`
(geometry.cpp lines 136–139) under IEEE semantics:
`t = (z − origin.z) / direction.z`, rejected iff `t < tMin`. -/
def Ground.intersectFP (z originz dirz tmin : ℚ) : Bool :=
  let t := fdivIEEE (z - originz) dirz
  if fltF t (FVal.fin tmin) then false else true

/-! ## Scene, light and camera interfaces (HypoxRayTracer.cpp)

`HypoxRayTracer.cpp` is the only tracer source in the snapshot; the
`Scene`, `Light` and `Camera` member functions it calls live in headers
that are not included, so they are modelled from the spec as abstract
data. -/

/-- A virtual point light: "position (3D point), color (3D radiance
value)" (spec §3). -/
structure VPL where
  position : Vec3
  color : Vec3

/-- Modelled from the spec: the scene interface consumed by the tracer —
`getLight()->getColor()`, `getLight()->getVPLs()`, `getAmbientLight()`
(§2, §3), and the query surface `intersect` (nearest hit, possibly the
light itself) and `isShadowed` (any-hit occlusion test) of §4.2, whose
implementations are not in the snapshot and are therefore abstract
functions. `intersect`'s C++ shape `bool(const Ray&, Interaction&)` is
rendered as an `Option Interaction`. -/
structure Scene where
  lightColor : Vec3
  vpls : List VPL
  ambientLight : Vec3
  isShadowed : Ray → Bool
  intersect : Ray → Option Interaction

/-- The direction from the hit point to a VPL,
`(vpl.position - interaction.position).normalized()`
(HypoxRayTracer.cpp line 21). -/
def lightDir (interaction : Interaction) (vpl : VPL) : Vec3 :=
  (vpl.position.sub interaction.position).normalized

/-- The shadow ray constructed in `evalRadiance`
(HypoxRayTracer.cpp lines 22–25): the two-argument `Ray` constructor is
applied to `interaction.position` and `light_dir + 0.01 * interaction.normal`. -/
def shadowRay (interaction : Interaction) (vpl : VPL) : Ray :=
  Ray.mk2 interaction.position
    ((lightDir interaction vpl).add (Vec3.smul 0.01 interaction.normal))

/-- Embedding of `HypoxRayTracer::evalRadiance`, from
`HypoxRayTracer.cpp` lines 7–48.  The two mutable accumulators
`diff`/`spec` become a pair-valued fold over the VPL list. -/
def evalRadiance (scene : Scene) (ray : Ray) (interaction : Interaction) : Vec3 :=
  if interaction.type = InterType.LIGHT then
    scene.lightColor
  else
    let amb := interaction.matmodel.Ambient.cwiseProduct scene.ambientLight
    let vpls := scene.vpls
    let ds := vpls.foldl
      (fun (acc : Vec3 × Vec3) vpl =>
        if scene.isShadowed (shadowRay interaction vpl) then
          acc
        else
          let light_dir := lightDir interaction vpl
          let diff_factor := max 0 (interaction.normal.dot light_dir)
          let reflect_dir :=
            ((Vec3.smul (2 * interaction.normal.dot light_dir) interaction.normal).sub
              light_dir).normalized
          let spec_factor :=
            max 0 (reflect_dir.dot ray.direction.neg) ^ interaction.matmodel.Shininess
          (acc.1.add
            (((interaction.matmodel.Diffuse.cwiseProduct vpl.color).mulScalar
                diff_factor).divScalar vpls.length),
           acc.2.add
            (((interaction.matmodel.Specular.cwiseProduct vpl.color).mulScalar
                spec_factor).divScalar vpls.length)))
      (Vec3.zero, Vec3.zero)
    amb.add (ds.1.add ds.2)

/-- Modelled from the spec: the camera interface consumed by the render
loop — `getImage()->getResolution()`, `generateSuperSamplingPoint(dx, dy,
spp)` returning sub-pixel coordinates, and `generateRay(x, y)` (§2, §6);
implementations are not in the snapshot. -/
structure Camera where
  resolution : ℕ × ℕ
  generateSuperSamplingPoint : ℕ → ℕ → ℕ → List (ℝ × ℝ)
  generateRay : ℝ → ℝ → Ray

/-- The tracer object: scene, camera and the samples-per-(pixel-side)
count `spp`. -/
structure HypoxRayTracer where
  scene : Scene
  camera : Camera
  spp : ℕ

/-- The per-pixel body of `HypoxRayTracer::render`
(HypoxRayTracer.cpp lines 65–79): accumulate `evalRadiance` over the
samples whose camera ray hits the scene, then divide by
`static_cast<float>(spp * spp)`. -/
def renderPixel (rt : HypoxRayTracer) (dx dy : ℕ) : Vec3 :=
  let sample_points := rt.camera.generateSuperSamplingPoint dx dy rt.spp
  let color := sample_points.foldl
    (fun (acc : Vec3) sample_point =>
      let ray := rt.camera.generateRay sample_point.1 sample_point.2
      (rt.scene.intersect ray).elim acc
        (fun interaction => acc.add (evalRadiance rt.scene ray interaction)))
    Vec3.zero
  color.divScalar ((rt.spp * rt.spp : ℕ) : ℝ)

/-- The per-pixel `setPixel` writes of `HypoxRayTracer::render`
(HypoxRayTracer.cpp lines 50–83) on its non-trapping path: one write per
`(dx, dy)` with `dx < resolution.x`, `dy < resolution.y`.  The OpenMP
parallel-for over columns partitions disjoint pixels, so the writes are
faithfully a list.  The progress-printing guard of line 56 can trap
before any of these writes happen — see `renderWrites`, which wraps this
list behind that guard. -/
def renderWriteList (rt : HypoxRayTracer) : List (ℕ × ℕ × Vec3) :=
  (List.range rt.camera.resolution.1).flatMap fun dx =>
    (List.range rt.camera.resolution.2).map fun dy => (dx, dy, renderPixel rt dx dy)

/-- The observable write behavior of `HypoxRayTracer::render` including
the progress-printing guard of HypoxRayTracer.cpp line 56: every column
evaluates `dx % (resolution.x() / 200)` before its pixel writes, so
whenever `0 < resolution.x() < 200` the integer divisor
`resolution.x() / 200` is zero and the very first column performs a
modulo by zero — undefined behavior (SIGFPE in practice) before any
`setPixel` — modelled as `none`.  Otherwise (width 0, where the column
loop body never runs, or width ≥ 200) the render completes and performs
exactly the writes of `renderWriteList`. -/
def renderWrites (rt : HypoxRayTracer) : Option (List (ℕ × ℕ × Vec3)) :=
  if 0 < rt.camera.resolution.1 ∧ rt.camera.resolution.1 / 200 = 0 then none
  else some (renderWriteList rt)

/-! ## Specification-side restatements

These definitions follow the spec's words (for the refinement-style
claims about `evalRadiance` and `render`) and are compared against the
source-derived definitions above. -/

/-- Specification-side restatement of `evalRadiance`: the light's color
on a LIGHT hit; otherwise ambient plus, for each unshadowed VPL, a
diffuse term `diffuseReflectance ⊙ v.color × max(0, n·l) / N` and a
specular term `specularReflectance ⊙ v.color × max(0, r·(−d))^shininess / N`
with `r = normalize(2(n·l)n − l)`, summed separately. -/
def evalRadianceSpec (scene : Scene) (ray : Ray) (interaction : Interaction) : Vec3 :=
  if interaction.type = InterType.LIGHT then
    scene.lightColor
  else
    let N : ℝ := scene.vpls.length
    let amb := interaction.matmodel.Ambient.cwiseProduct scene.ambientLight
    let unshadowed := scene.vpls.filter fun v => !(scene.isShadowed (shadowRay interaction v))
    let diffuse := Vec3.vecSum (unshadowed.map fun v =>
      ((interaction.matmodel.Diffuse.cwiseProduct v.color).mulScalar
        (max 0 (interaction.normal.dot (lightDir interaction v)))).divScalar N)
    let specular := Vec3.vecSum (unshadowed.map fun v =>
      let l := lightDir interaction v
      let reflect_dir :=
        ((Vec3.smul (2 * interaction.normal.dot l) interaction.normal).sub l).normalized
      ((interaction.matmodel.Specular.cwiseProduct v.color).mulScalar
        (max 0 (reflect_dir.dot ray.direction.neg) ^ interaction.matmodel.Shininess)).divScalar N)
    amb.add (diffuse.add specular)

/-- Specification-side restatement of the per-pixel value written by
`render`: the sum of `evalRadiance` over those super-sampling rays that
intersect the scene, divided by `spp²`. -/
def renderPixelSpec (rt : HypoxRayTracer) (dx dy : ℕ) : Vec3 :=
  let samples := rt.camera.generateSuperSamplingPoint dx dy rt.spp
  (Vec3.vecSum (samples.filterMap fun sample_point =>
    (rt.scene.intersect (rt.camera.generateRay sample_point.1 sample_point.2)).map
      (fun interaction =>
        evalRadiance rt.scene
          (rt.camera.generateRay sample_point.1 sample_point.2) interaction))).divScalar
    ((rt.spp : ℝ) ^ 2)

/-! ## Concrete objects for witnesses and counterexamples -/

/-- A trivial material response. -/
def mm0 : MatModel := ⟨Vec3.zero, Vec3.zero, Vec3.zero, 1⟩

/-- A material whose evaluation is constantly `mm0`. -/
def m0 : Material := ⟨fun _ => mm0⟩

/-- An empty hit record, as a caller would allocate before an
intersection call. -/
def i0 : Interaction := ⟨0, Vec3.zero, Vec3.zero, mm0, InterType.NONE⟩

/-- Concrete triangle: the unit right triangle in the plane `z = 0`, with
stored (unnormalized) face normal `(0, 0, 2)`. -/
def tri0 : Triangle := ⟨Vec3.zero, ⟨1, 0, 0⟩, ⟨0, 1, 0⟩, ⟨0, 0, 2⟩, m0⟩

/-- Concrete ray shooting straight down onto `tri0` through `(1/4, 1/4)`. -/
def rayT : Ray := ⟨⟨1/4, 1/4, 1⟩, ⟨0, 0, -1⟩, 0, 100000⟩

/-- Concrete ray pointing straight up, away from `tri0`. -/
def rayTMiss : Ray := ⟨⟨0, 0, 1⟩, ⟨0, 0, 1⟩, 0, 100000⟩

/-- Concrete rectangle: a 2×2 square centered at the origin in the plane
`z = 0` with normal `(0, 0, 1)` and tangent `(1, 0, 0)`. -/
def rect0 : Rectangle := ⟨Vec3.zero, (2, 2), ⟨0, 0, 1⟩, ⟨1, 0, 0⟩, m0⟩

/-- Concrete epsilon for the rectangle's parallel-ray guard. -/
def EPS0 : ℝ := 1 / 1000

/-- Concrete ray hitting `rect0` at `t = 1` but carrying `tMin = 2`. -/
def rayR : Ray := ⟨⟨0, 0, 1⟩, ⟨0, 0, -1⟩, 2, 100000⟩

/-- Concrete ray parallel to `rect0`'s plane (a guaranteed miss). -/
def rayRMiss : Ray := ⟨⟨0, 0, 1⟩, ⟨1, 0, 0⟩, 0, 100000⟩

/-- Concrete ellipsoid: the unit sphere at the origin (axis vectors the
standard basis). -/
def ell0 : Ellipsoid := ⟨Vec3.zero, ⟨1, 0, 0⟩, ⟨0, 1, 0⟩, ⟨0, 0, 1⟩, m0⟩

/-- Concrete ray hitting `ell0` at `t = 1` (roots 1 and 3). -/
def rayE : Ray := ⟨⟨0, 0, 2⟩, ⟨0, 0, -1⟩, 1/2, 100000⟩

/-- Concrete ray missing `ell0` (negative discriminant). -/
def rayEMiss : Ray := ⟨⟨0, 0, 5⟩, ⟨1, 0, 0⟩, 0, 100000⟩

/-- Concrete ground plane at height `z = 0`. -/
def ground0 : Ground := ⟨0, m0⟩

/-- Concrete ray hitting `ground0` at `t = 1`. -/
def rayG : Ray := ⟨⟨0, 0, 1⟩, ⟨0, 0, -1⟩, 0, 100000⟩

/-- Concrete hit record for the shadow-ray claims: a point at the origin
with surface normal `(0, 0, 1)`. -/
def interS : Interaction := ⟨0, Vec3.zero, ⟨0, 0, 1⟩, mm0, InterType.GEOMETRY⟩

/-- Concrete VPL at `(1, 0, 0)` with white color. -/
def vpl0 : VPL := ⟨⟨1, 0, 0⟩, ⟨1, 1, 1⟩⟩

/-- Concrete scene whose `isShadowed` is constantly true, with a single
VPL. -/
def sceneShadowed : Scene := ⟨⟨1, 1, 1⟩, [vpl0], ⟨1, 2, 3⟩, fun _ => true, fun _ => none⟩

/-- Concrete scene with an empty VPL list, zero ambient light, and an
intersection query that reports a direct hit on the (white) light. -/
def sceneLight : Scene :=
  ⟨⟨1, 1, 1⟩, [], Vec3.zero, fun _ => false,
   fun _ => some ⟨1, Vec3.zero, ⟨0, 0, 1⟩, mm0, InterType.LIGHT⟩⟩

/-- Concrete one-pixel, one-sample camera. -/
def cam1 : Camera := ⟨(1, 1), fun _ _ _ => [(0, 0)], fun _ _ => rayG⟩

/-- Concrete tracer over `sceneLight`: every camera ray sees the light
directly. -/
def rtLight : HypoxRayTracer := ⟨sceneLight, cam1, 1⟩

/-- Concrete scene with an empty VPL list, zero ambient light, and no
intersections at all. -/
def sceneDark : Scene := ⟨⟨1, 1, 1⟩, [], Vec3.zero, fun _ => false, fun _ => none⟩

/-- Concrete tracer over `sceneDark`. -/
def rtDark : HypoxRayTracer := ⟨sceneDark, cam1, 1⟩

/-- Concrete 200×1 camera, wide enough for the render loop's
progress-printing guard (`resolution.x() / 200 = 1`, no modulo by
zero). -/
def camWide : Camera := ⟨(200, 1), fun _ _ _ => [(0, 0)], fun _ _ => rayG⟩

/-- Concrete 200-pixel-wide tracer over `sceneLight`. -/
def rtLightWide : HypoxRayTracer := ⟨sceneLight, camWide, 1⟩

/-! ## Basic vector lemmas -/

theorem Vec3.dot_self_nonneg (v : Vec3) : 0 ≤ v.dot v := by
  have hx := mul_self_nonneg v.x
  have hy := mul_self_nonneg v.y
  have hz := mul_self_nonneg v.z
  simp only [dot]; linarith

theorem Vec3.dot_self_pos (v : Vec3) (h : v ≠ Vec3.zero) : 0 < v.dot v := by
  rcases lt_or_eq_of_le (Vec3.dot_self_nonneg v) with hlt | heq
  · exact hlt
  · exfalso
    apply h
    simp only [dot] at heq
    have h1 := mul_self_nonneg v.x
    have h2 := mul_self_nonneg v.y
    have h3 := mul_self_nonneg v.z
    have hx : v.x = 0 := mul_self_eq_zero.mp (by linarith)
    have hy : v.y = 0 := mul_self_eq_zero.mp (by linarith)
    have hz : v.z = 0 := mul_self_eq_zero.mp (by linarith)
    cases v
    simp only [Vec3.zero] at hx hy hz ⊢
    simp [hx, hy, hz]

theorem Vec3.dot_smul_left (c : ℝ) (u v : Vec3) :
    (Vec3.smul c u).dot v = c * u.dot v := by
  simp only [smul, dot]; ring

theorem Vec3.dot_smul_right (c : ℝ) (u v : Vec3) :
    u.dot (Vec3.smul c v) = c * u.dot v := by
  simp only [smul, dot]; ring

/-- The normalization of a nonzero vector is a unit vector. -/
theorem Vec3.norm_normalized (v : Vec3) (h : v ≠ Vec3.zero) :
    v.normalized.norm = 1 := by
  have hpos := Vec3.dot_self_pos v h
  have hsp : (0 : ℝ) < Real.sqrt (v.dot v) := Real.sqrt_pos.mpr hpos
  have hne : Real.sqrt (v.dot v) ≠ 0 := ne_of_gt hsp
  simp only [normalized, norm, Vec3.dot_smul_left, Vec3.dot_smul_right]
  have h1 : 1 / Real.sqrt (v.dot v) * (1 / Real.sqrt (v.dot v) * v.dot v) = 1 := by
    field_simp
  rw [h1, Real.sqrt_one]

theorem Vec3.add_zero' (v : Vec3) : v.add Vec3.zero = v := by
  cases v; simp [Vec3.add, Vec3.zero]

theorem Vec3.zero_add' (v : Vec3) : Vec3.zero.add v = v := by
  cases v; simp [Vec3.add, Vec3.zero]

theorem Vec3.add_assoc' (u v w : Vec3) : (u.add v).add w = u.add (v.add w) := by
  simp only [Vec3.add, Vec3.mk.injEq]
  refine ⟨by ring, by ring, by ring⟩

theorem Vec3.vecSum_nil : Vec3.vecSum [] = Vec3.zero := rfl

theorem Vec3.vecSum_cons (a : Vec3) (l : List Vec3) :
    Vec3.vecSum (a :: l) = a.add (Vec3.vecSum l) := rfl

/-- Dividing the zero vector by any scalar yields the zero vector. -/
theorem Vec3.zero_divScalar (c : ℝ) : Vec3.zero.divScalar c = Vec3.zero := by
  simp [Vec3.divScalar, Vec3.zero]

/-! ## Fold-to-sum lemmas for the accumulation loops -/

/-- A fold that conditionally skips elements and otherwise accumulates a
pair of vector terms equals the pair of sums over the kept elements. -/
theorem foldl_pair_filter (l : List VPL) (p : VPL → Bool) (f g : VPL → Vec3)
    (acc : Vec3 × Vec3) :
    l.foldl
      (fun (acc : Vec3 × Vec3) v =>
        if p v then acc else (acc.1.add (f v), acc.2.add (g v))) acc
      = (acc.1.add (Vec3.vecSum ((l.filter fun v => !(p v)).map f)),
         acc.2.add (Vec3.vecSum ((l.filter fun v => !(p v)).map g))) := by
  induction l generalizing acc with
  | nil => simp [Vec3.vecSum_nil, Vec3.add_zero']
  | cons v l ih =>
    by_cases hv : p v = true
    · rw [List.foldl_cons, if_pos hv, ih]
      simp [List.filter_cons, hv]
    · have hv' : p v = false := by simpa using hv
      rw [List.foldl_cons, if_neg hv, ih]
      simp only [List.filter_cons, hv', Bool.not_false, if_true, List.map_cons,
        Vec3.vecSum_cons]
      rw [Vec3.add_assoc', Vec3.add_assoc']

/-- A fold that accumulates a term for each element whose query succeeds
equals the sum over the successful elements. -/
theorem foldl_hits {α β : Type} (l : List α) (G : α → Option β)
    (H : α → β → Vec3) (acc : Vec3) :
    l.foldl
      (fun (acc : Vec3) sp => (G sp).elim acc (fun i => acc.add (H sp i))) acc
      = acc.add (Vec3.vecSum (l.filterMap fun sp => (G sp).map (H sp))) := by
  induction l generalizing acc with
  | nil => simp [Vec3.vecSum_nil, Vec3.add_zero']
  | cons a l ih =>
    cases hG : G a with
    | none =>
      simp only [List.foldl_cons, hG, List.filterMap_cons, Option.map_none',
        Option.elim_none]
      rw [ih]
    | some b =>
      simp only [List.foldl_cons, hG, List.filterMap_cons, Option.map_some',
        Option.elim_some]
      rw [ih, Vec3.vecSum_cons, Vec3.add_assoc']

/-! ## Characterizations of the tracer functions -/

/-- The source-derived `evalRadiance` agrees with the specification-side
filtered-sum formulation. -/
theorem evalRadiance_eq_spec (scene : Scene) (ray : Ray) (interaction : Interaction) :
    evalRadiance scene ray interaction = evalRadianceSpec scene ray interaction := by
  by_cases ht : interaction.type = InterType.LIGHT
  · simp [evalRadiance, evalRadianceSpec, ht]
  · simp only [evalRadiance, evalRadianceSpec, ht, if_false]
    rw [foldl_pair_filter scene.vpls
      (fun v => scene.isShadowed (shadowRay interaction v))
      (fun v =>
        ((interaction.matmodel.Diffuse.cwiseProduct v.color).mulScalar
          (max 0 (interaction.normal.dot (lightDir interaction v)))).divScalar
          scene.vpls.length)
      (fun v =>
        ((interaction.matmodel.Specular.cwiseProduct v.color).mulScalar
          (max 0
            ((((Vec3.smul (2 * interaction.normal.dot (lightDir interaction v))
                interaction.normal).sub (lightDir interaction v)).normalized).dot
              ray.direction.neg) ^ interaction.matmodel.Shininess)).divScalar
          scene.vpls.length)
      (Vec3.zero, Vec3.zero)]
    rw [Vec3.zero_add', Vec3.zero_add']

/-- The source-derived per-pixel fold agrees with the specification-side
"sum of radiance over hitting samples over spp²" formulation. -/
theorem renderPixel_eq_spec (rt : HypoxRayTracer) (dx dy : ℕ) :
    renderPixel rt dx dy = renderPixelSpec rt dx dy := by
  simp only [renderPixel, renderPixelSpec]
  rw [foldl_hits (rt.camera.generateSuperSamplingPoint dx dy rt.spp)
    (fun sample_point =>
      rt.scene.intersect (rt.camera.generateRay sample_point.1 sample_point.2))
    (fun sample_point interaction =>
      evalRadiance rt.scene (rt.camera.generateRay sample_point.1 sample_point.2)
        interaction)
    Vec3.zero]
  rw [Vec3.zero_add']
  congr 1
  push_cast
  ring

/-- A sum of zero vectors is zero. -/
theorem vecSum_zero (l : List Vec3) (h : ∀ x ∈ l, x = Vec3.zero) :
    Vec3.vecSum l = Vec3.zero := by
  induction l with
  | nil => rfl
  | cons a l ih =>
    rw [Vec3.vecSum_cons, h a (List.mem_cons_self a l),
      ih fun x hx => h x (List.mem_cons_of_mem a hx)]
    exact Vec3.zero_add' _

/-- The pixel indices written by `render`: mapping the write list to its
index part yields the plain index grid. -/
theorem renderWriteList_indices (rt : HypoxRayTracer) :
    ((renderWriteList rt).map fun e => (e.1, e.2.1))
      = (List.range rt.camera.resolution.1).flatMap
          fun a => (List.range rt.camera.resolution.2).map fun b => (a, b) := by
  simp [renderWriteList, List.map_flatMap, List.map_map, Function.comp_def]

/-- In a duplicate-free list, a member is counted exactly once. -/
theorem count_nodup_mem {α : Type} [BEq α] [LawfulBEq α] (l : List α) (a : α)
    (hn : l.Nodup) (hm : a ∈ l) : l.count a = 1 := by
  induction l with
  | nil => cases hm
  | cons b l ih =>
    rw [List.count_cons]
    rcases List.mem_cons.mp hm with rfl | hmem
    · have h0 : l.count a = 0 := List.count_eq_zero.mpr (by
        intro hc; exact (List.nodup_cons.mp hn).1 hc)
      simp [h0]
    · have hne : ¬(b == a) = true := by
        intro hb
        have hba : b = a := by simpa using hb
        subst hba
        exact (List.nodup_cons.mp hn).1 hmem
      rw [ih (List.nodup_cons.mp hn).2 hmem]
      simp [hne]

/-- Within bounds, each pixel index is written exactly once. -/
theorem renderWriteList_count (rt : HypoxRayTracer) (dx dy : ℕ)
    (hdx : dx < rt.camera.resolution.1) (hdy : dy < rt.camera.resolution.2) :
    ((renderWriteList rt).map fun e => (e.1, e.2.1)).count (dx, dy) = 1 := by
  rw [renderWriteList_indices]
  apply count_nodup_mem
  · rw [List.nodup_flatMap]
    constructor
    · intro a _
      exact (List.nodup_range _).map fun b1 b2 hb => by simpa using hb
    · apply (List.pairwise_lt_range _).imp
      intro a b hab
      intro x hx1 hx2
      rcases List.mem_map.mp hx1 with ⟨b1, _, rfl⟩
      rcases List.mem_map.mp hx2 with ⟨b2, _, he⟩
      exact absurd (congrArg Prod.fst he).symm (Nat.ne_of_lt hab)
  · exact List.mem_flatMap.mpr
      ⟨dx, List.mem_range.mpr hdx, List.mem_map.mpr ⟨dy, List.mem_range.mpr hdy, rfl⟩⟩

/-- Membership in the write list. -/
theorem renderWriteList_mem (rt : HypoxRayTracer) (dx dy : ℕ)
    (hdx : dx < rt.camera.resolution.1) (hdy : dy < rt.camera.resolution.2) :
    (dx, dy, renderPixel rt dx dy) ∈ renderWriteList rt :=
  List.mem_flatMap.mpr
    ⟨dx, List.mem_range.mpr hdx, List.mem_map.mpr ⟨dy, List.mem_range.mpr hdy, rfl⟩⟩

/-- Characterization of the write list's elements. -/
theorem renderWriteList_mem_iff (rt : HypoxRayTracer) (e : ℕ × ℕ × Vec3) :
    e ∈ renderWriteList rt ↔
      ∃ dx, dx < rt.camera.resolution.1 ∧
        ∃ dy, dy < rt.camera.resolution.2 ∧ e = (dx, dy, renderPixel rt dx dy) := by
  simp only [renderWriteList, List.mem_flatMap, List.mem_map, List.mem_range]
  constructor
  · rintro ⟨dx, hdx, dy, hdy, rfl⟩
    exact ⟨dx, hdx, dy, hdy, rfl⟩
  · rintro ⟨dx, hdx, dy, hdy, rfl⟩
    exact ⟨dx, hdx, dy, hdy, rfl⟩

/-- On a non-LIGHT hit in a scene with no VPLs and zero ambient light,
the radiance is zero. -/
theorem evalRadiance_black (scene : Scene) (ray : Ray) (interaction : Interaction)
    (h1 : scene.vpls = []) (h2 : scene.ambientLight = Vec3.zero)
    (ht : interaction.type ≠ InterType.LIGHT) :
    evalRadiance scene ray interaction = Vec3.zero := by
  simp only [evalRadiance, ht, if_false, h1, h2, List.foldl_nil]
  simp [Vec3.cwiseProduct, Vec3.add, Vec3.zero]

theorem sqrt_four : Real.sqrt 4 = 2 := by
  rw [show (4 : ℝ) = 2 ^ 2 by norm_num]
  exact Real.sqrt_sq (by norm_num)

/-- The value `(−b − √d)/(2a)` is a root of `a t² + b t + c` when `d` is the
(nonnegative) discriminant. -/
theorem quad_root_neg (a b c d : ℝ) (ha : a ≠ 0) (hd : 0 ≤ d)
    (hdeq : d = b * b - 4 * a * c) :
    a * ((-b - Real.sqrt d) / (2 * a)) ^ 2 + b * ((-b - Real.sqrt d) / (2 * a)) + c
      = 0 := by
  have hs2 : Real.sqrt d ^ 2 = d := Real.sq_sqrt hd
  have h2a : (2 : ℝ) * a ≠ 0 := mul_ne_zero two_ne_zero ha
  field_simp
  linear_combination 2 * a ^ 2 * hs2 + 2 * a ^ 2 * hdeq

/-- The value `(−b + √d)/(2a)` is a root of `a t² + b t + c` when `d` is the
(nonnegative) discriminant. -/
theorem quad_root_pos (a b c d : ℝ) (ha : a ≠ 0) (hd : 0 ≤ d)
    (hdeq : d = b * b - 4 * a * c) :
    a * ((-b + Real.sqrt d) / (2 * a)) ^ 2 + b * ((-b + Real.sqrt d) / (2 * a)) + c
      = 0 := by
  have hs2 : Real.sqrt d ^ 2 = d := Real.sq_sqrt hd
  have h2a : (2 : ℝ) * a ≠ 0 := mul_ne_zero two_ne_zero ha
  field_simp
  linear_combination 2 * a ^ 2 * hs2 + 2 * a ^ 2 * hdeq

/-! ## Concrete evaluations on the unit-sphere example -/

theorem ell0_origin : Ellipsoid.transformedOrigin ell0 rayE = ⟨0, 0, 2⟩ := by
  norm_num [Ellipsoid.transformedOrigin, Ellipsoid.Minv, Ellipsoid.M,
    Ellipsoid.Tmat, Ellipsoid.Rmat, Ellipsoid.Smat, Aff.comp, Aff.inv,
    Aff.applyPoint, Mat3.mul, Mat3.inv, Mat3.det, Mat3.id, Mat3.mulVec, ell0,
    rayE, Vec3.normalized, Vec3.norm, Vec3.dot, Vec3.smul, Vec3.add, Vec3.neg,
    Vec3.zero, Vec3.mk.injEq, Real.sqrt_one]

theorem ell0_dir : Ellipsoid.transformedDir ell0 rayE = ⟨0, 0, -1⟩ := by
  norm_num [Ellipsoid.transformedDir, Ellipsoid.Minv, Ellipsoid.M,
    Ellipsoid.Tmat, Ellipsoid.Rmat, Ellipsoid.Smat, Aff.comp, Aff.inv,
    Aff.applyVec, Mat3.mul, Mat3.inv, Mat3.det, Mat3.id, Mat3.mulVec, ell0,
    rayE, Vec3.normalized, Vec3.norm, Vec3.dot, Vec3.smul, Vec3.add, Vec3.neg,
    Vec3.zero, Vec3.mk.injEq, Real.sqrt_one]

theorem ell0_quadA : Ellipsoid.quadA ell0 rayE = 1 := by
  rw [Ellipsoid.quadA, ell0_dir]; norm_num [Vec3.dot]

theorem ell0_quadB : Ellipsoid.quadB ell0 rayE = -4 := by
  rw [Ellipsoid.quadB, ell0_origin, ell0_dir]; norm_num [Vec3.dot]

theorem ell0_quadC : Ellipsoid.quadC ell0 rayE = 3 := by
  rw [Ellipsoid.quadC, ell0_origin]; norm_num [Vec3.dot]

theorem ell0_delta : Ellipsoid.delta ell0 rayE = 4 := by
  rw [Ellipsoid.delta, ell0_quadA, ell0_quadB, ell0_quadC]; norm_num

theorem ell0_t1 : Ellipsoid.t1 ell0 rayE = 1 := by
  rw [Ellipsoid.t1, ell0_delta, ell0_quadA, ell0_quadB, sqrt_four]; norm_num

theorem ell0_t2 : Ellipsoid.t2 ell0 rayE = 3 := by
  rw [Ellipsoid.t2, ell0_delta, ell0_quadA, ell0_quadB, sqrt_four]; norm_num

theorem ell0_selectT : Ellipsoid.selectT ell0 rayE = some 1 := by
  rw [Ellipsoid.selectT, ell0_t1, ell0_t2]
  norm_num

theorem ell0_rawNormal : Ellipsoid.rawNormal ell0 rayE 1 = ⟨0, 0, 1⟩ := by
  rw [Ellipsoid.rawNormal, ell0_origin, ell0_dir]
  norm_num [Ellipsoid.M, Ellipsoid.Tmat, Ellipsoid.Rmat, Ellipsoid.Smat,
    Aff.comp, Mat3.mul, Mat3.inv, Mat3.det, Mat3.id, Mat3.transpose,
    Mat3.mulVec, ell0, Vec3.normalized, Vec3.norm, Vec3.dot, Vec3.smul,
    Vec3.add, Vec3.zero, Vec3.mk.injEq, Real.sqrt_one]

theorem ell0_hit : (Ellipsoid.intersect ell0 rayE i0).1 = true ∧
    (Ellipsoid.intersect ell0 rayE i0).2.distance = 1 := by
  have hδ : Ellipsoid.delta ell0 rayE > 0 := by rw [ell0_delta]; norm_num
  constructor <;>
    · simp only [Ellipsoid.intersect, if_pos hδ, ell0_selectT, Option.elim_some]
      rw [if_neg (by norm_num [rayE] : ¬(1 : ℝ) < rayE.tMin)]

/-! ## The claims -/

/-- Claim C5: `evalRadiance` returns the light's color when the
interaction's discriminator is LIGHT; otherwise it returns
ambient + diffuse + specular where, for each unshadowed VPL `v`, diffuse
accumulates `diffuseReflectance ⊙ v.color × max(0, n·l) / N` and specular
accumulates `specularReflectance ⊙ v.color × max(0, r·(−d))^shininess / N`
with `r = normalize(2(n·l)n − l)` (see `evalRadianceSpec`). -/
theorem C5_evalRadiance_formula (scene : Scene) (ray : Ray)
    (interaction : Interaction) :
    evalRadiance scene ray interaction = evalRadianceSpec scene ray interaction :=
  evalRadiance_eq_spec scene ray interaction

/-- Claim C6, amended: for every in-bounds pixel `(dx, dy)` of an image
at least 200 pixels wide, `render` completes (the progress guard's
divisor `resolution.x() / 200` is nonzero) and writes that pixel exactly
once, the value being the sum of `evalRadiance` over those
super-sampling camera rays that intersect the scene (misses contribute
nothing) divided by `spp²` (see `renderPixelSpec`).  For widths strictly
between 0 and 200 the guard of line 56 performs a modulo by zero before
any write — see `C6_render_counterexample`. -/
theorem C6_render_writes_once (rt : HypoxRayTracer) (dx dy : ℕ)
    (hw : 200 ≤ rt.camera.resolution.1)
    (hdx : dx < rt.camera.resolution.1) (hdy : dy < rt.camera.resolution.2) :
    renderWrites rt = some (renderWriteList rt) ∧
    ((renderWriteList rt).map fun e => (e.1, e.2.1)).count (dx, dy) = 1 ∧
    (dx, dy, renderPixelSpec rt dx dy) ∈ renderWriteList rt ∧
    ∀ v, (dx, dy, v) ∈ renderWriteList rt → v = renderPixelSpec rt dx dy := by
  refine ⟨?_, renderWriteList_count rt dx dy hdx hdy, ?_, ?_⟩
  · have hdiv : rt.camera.resolution.1 / 200 ≠ 0 := by
      have h1 : 1 ≤ rt.camera.resolution.1 / 200 :=
        (Nat.one_le_div_iff (by norm_num)).mpr hw
      omega
    simp only [renderWrites]
    rw [if_neg (fun hc => hdiv hc.2)]
  · rw [← renderPixel_eq_spec]
    exact renderWriteList_mem rt dx dy hdx hdy
  · intro v hv
    rcases (renderWriteList_mem_iff rt _).mp hv with ⟨a, _, b, _, he⟩
    have hav : dx = a ∧ dy = b ∧ v = renderPixel rt a b := by
      simpa [Prod.ext_iff] using he
    rcases hav with ⟨rfl, rfl, rfl⟩
    exact renderPixel_eq_spec rt dx dy

/-- Counterexample to claim C6 as stated: a 1-pixel-wide image has
in-bounds pixels, but the render's progress guard evaluates
`dx % (resolution.x() / 200)` with `resolution.x() / 200 = 0` on the
first column, before any `setPixel` — the render traps and no pixel is
written even once. -/
theorem C6_render_counterexample :
    0 < rtLight.camera.resolution.1 ∧ 0 < rtLight.camera.resolution.2 ∧
    renderWrites rtLight = none := by
  refine ⟨by norm_num [rtLight, cam1], by norm_num [rtLight, cam1], ?_⟩
  simp only [renderWrites]
  rw [if_pos]
  constructor <;> norm_num [rtLight, cam1]

/-- Witness for claim C6 (amended) at a concrete 200-pixel-wide tracer. -/
theorem C6_render_writes_once_witness :
    200 ≤ rtLightWide.camera.resolution.1 ∧ 0 < rtLightWide.camera.resolution.1 ∧
    0 < rtLightWide.camera.resolution.2 ∧
    (renderWrites rtLightWide = some (renderWriteList rtLightWide) ∧
      ((renderWriteList rtLightWide).map fun e => (e.1, e.2.1)).count (0, 0) = 1 ∧
      (0, 0, renderPixelSpec rtLightWide 0 0) ∈ renderWriteList rtLightWide ∧
      ∀ v, (0, 0, v) ∈ renderWriteList rtLightWide →
        v = renderPixelSpec rtLightWide 0 0) :=
  ⟨by norm_num [rtLightWide, camWide], by norm_num [rtLightWide, camWide],
   by norm_num [rtLightWide, camWide],
   C6_render_writes_once rtLightWide 0 0 (by norm_num [rtLightWide, camWide])
     (by norm_num [rtLightWide, camWide]) (by norm_num [rtLightWide, camWide])⟩

/-- Claim C8, amended: a scene with an empty VPL set and zero ambient
light renders to pure black, provided no sample ray's nearest hit is the
light source itself (a direct LIGHT hit returns the light's color, which
need not be black — see `C8_black_counterexample`). -/
theorem C8_black_render (rt : HypoxRayTracer)
    (h1 : rt.scene.vpls = []) (h2 : rt.scene.ambientLight = Vec3.zero)
    (h3 : ∀ r i, rt.scene.intersect r = some i → i.type ≠ InterType.LIGHT) :
    ∀ e ∈ renderWriteList rt, e.2.2 = Vec3.zero := by
  intro e he
  rcases (renderWriteList_mem_iff rt e).mp he with ⟨a, _, b, _, rfl⟩
  show renderPixel rt a b = Vec3.zero
  rw [renderPixel_eq_spec]
  simp only [renderPixelSpec]
  rw [vecSum_zero, Vec3.zero_divScalar]
  intro x hx
  rcases List.mem_filterMap.mp hx with ⟨sp, _, hmap⟩
  rcases Option.map_eq_some'.mp hmap with ⟨i, hi, rfl⟩
  exact evalRadiance_black rt.scene _ i h1 h2 (h3 _ i hi)

/-- Counterexample to claim C8 as stated: a scene with an empty VPL set
and zero ambient light whose (completing, 200-pixel-wide) render is not
black, because a camera ray hits the (white) light source directly. -/
theorem C8_black_counterexample :
    rtLightWide.scene.vpls = [] ∧ rtLightWide.scene.ambientLight = Vec3.zero ∧
    (0, 0, (⟨1, 1, 1⟩ : Vec3)) ∈ renderWriteList rtLightWide ∧
    (⟨1, 1, 1⟩ : Vec3) ≠ Vec3.zero := by
  refine ⟨rfl, rfl, ?_, ?_⟩
  · have hpix : renderPixel rtLightWide 0 0 = ⟨1, 1, 1⟩ := by
      simp only [renderPixel, rtLightWide, camWide, sceneLight, List.foldl_cons,
        List.foldl_nil, Option.elim_some, evalRadiance]
      norm_num [Vec3.add, Vec3.zero, Vec3.divScalar]
    have := renderWriteList_mem rtLightWide 0 0
      (by norm_num [rtLightWide, camWide]) (by norm_num [rtLightWide, camWide])
    rwa [hpix] at this
  · intro h
    have := congrArg Vec3.x h
    norm_num [Vec3.zero] at this

/-- Witness for claim C8 (amended) at a concrete dark scene. -/
theorem C8_black_render_witness :
    rtDark.scene.vpls = [] ∧ rtDark.scene.ambientLight = Vec3.zero ∧
    ∀ e ∈ renderWriteList rtDark, e.2.2 = Vec3.zero :=
  ⟨rfl, rfl,
   C8_black_render rtDark rfl rfl (fun _ i h => by
     simp [rtDark, sceneDark] at h)⟩

/-- Counterexample to claim C2 as stated: the shadow ray built by
`evalRadiance` does not have origin `hit.position + 0.01 × normal` with
direction `light_dir`; at a concrete hit record its origin is the
unoffset `hit.position` (the 0.01 × normal bias is added to the
direction instead). -/
theorem C2_shadow_ray_counterexample :
    ¬((shadowRay interS vpl0).origin =
        interS.position.add (Vec3.smul 0.01 interS.normal) ∧
      (shadowRay interS vpl0).direction = lightDir interS vpl0) := by
  intro h
  have h1 := congrArg Vec3.z h.1
  simp only [shadowRay, Ray.mk2, interS, Vec3.smul, Vec3.add, Vec3.zero] at h1
  norm_num at h1

/-- Claim C2, amended: the shadow ray cast for a VPL has origin
`hit.position` (no offset) and direction `light_dir + 0.01 × normal`
(the self-intersection bias is folded into the direction); and whenever
`isShadowed` is true for that ray the VPL contributes nothing to the
diffuse and specular sums: on every non-LIGHT hit the radiance is the
ambient term plus diffuse and specular sums ranging over exactly the
VPLs whose shadow ray is unshadowed (each term still divided by the
total VPL count). -/
theorem C2_shadow_ray_amended :
    (∀ (interaction : Interaction) (vpl : VPL),
        (shadowRay interaction vpl).origin = interaction.position ∧
        (shadowRay interaction vpl).direction =
          (lightDir interaction vpl).add (Vec3.smul 0.01 interaction.normal)) ∧
    ∀ (scene : Scene) (ray : Ray) (interaction : Interaction),
      interaction.type ≠ InterType.LIGHT →
      evalRadiance scene ray interaction =
        (interaction.matmodel.Ambient.cwiseProduct scene.ambientLight).add
          ((Vec3.vecSum
              ((scene.vpls.filter fun v =>
                  !(scene.isShadowed (shadowRay interaction v))).map
                fun v =>
                  ((interaction.matmodel.Diffuse.cwiseProduct v.color).mulScalar
                    (max 0 (interaction.normal.dot
                      (lightDir interaction v)))).divScalar
                    scene.vpls.length)).add
            (Vec3.vecSum
              ((scene.vpls.filter fun v =>
                  !(scene.isShadowed (shadowRay interaction v))).map
                fun v =>
                  ((interaction.matmodel.Specular.cwiseProduct v.color).mulScalar
                    (max 0
                      ((((Vec3.smul
                          (2 * interaction.normal.dot (lightDir interaction v))
                          interaction.normal).sub
                            (lightDir interaction v)).normalized).dot
                        ray.direction.neg) ^
                      interaction.matmodel.Shininess)).divScalar
                    scene.vpls.length))) := by
  constructor
  · exact fun interaction vpl => ⟨rfl, rfl⟩
  · intro scene ray interaction ht
    rw [evalRadiance_eq_spec]
    simp only [evalRadianceSpec, ht, if_false]

/-- Witness for claim C2 (amended): a concrete scene whose single VPL is
shadowed, so both sums are empty and the radiance reduces to the ambient
term (which is zero for the trivial material). -/
theorem C2_shadow_ray_amended_witness :
    interS.type ≠ InterType.LIGHT ∧
    sceneShadowed.isShadowed (shadowRay interS vpl0) = true ∧
    evalRadiance sceneShadowed rayG interS = Vec3.zero := by
  have ht : interS.type ≠ InterType.LIGHT := by simp [interS]
  refine ⟨ht, rfl, ?_⟩
  rw [C2_shadow_ray_amended.2 sceneShadowed rayG interS ht]
  norm_num [sceneShadowed, interS, mm0, List.filter, Vec3.vecSum,
    Vec3.cwiseProduct, Vec3.add, Vec3.zero]

/-- Claim C9: whenever `Triangle::intersect`, `Rectangle::intersect` or
`Ellipsoid::intersect` returns false, the `Interaction` passed by mutable
reference is left completely unchanged (all writes happen only on the
accepting path). -/
theorem C9_miss_leaves_interaction_unchanged :
    (∀ (tri : Triangle) (ray : Ray) (i : Interaction),
        (Triangle.intersect tri ray i).1 = false →
        (Triangle.intersect tri ray i).2 = i) ∧
    (∀ (EPS : ℝ) (rect : Rectangle) (ray : Ray) (i : Interaction),
        (Rectangle.intersect EPS rect ray i).1 = false →
        (Rectangle.intersect EPS rect ray i).2 = i) ∧
    ∀ (e : Ellipsoid) (ray : Ray) (i : Interaction),
      (Ellipsoid.intersect e ray i).1 = false →
      (Ellipsoid.intersect e ray i).2 = i := by
  refine ⟨?_, ?_, ?_⟩
  · intro tri ray i h
    simp only [Triangle.intersect] at h ⊢
    split_ifs at h ⊢ <;> rfl
  · intro EPS rect ray i h
    simp only [Rectangle.intersect] at h ⊢
    split_ifs at h ⊢ <;> rfl
  · intro e ray i h
    simp only [Ellipsoid.intersect] at h ⊢
    split_ifs at h ⊢ with hd
    · cases hsel : e.selectT ray with
      | none => simp [hsel]
      | some t =>
        simp only [hsel, Option.elim_some] at h ⊢
        split_ifs at h ⊢ <;> rfl
    · rfl

/-- Witness for claim C9: concrete misses for all three primitives. -/
theorem C9_miss_witness :
    (Triangle.intersect tri0 rayTMiss i0).2 = i0 ∧
    (Rectangle.intersect EPS0 rect0 rayRMiss i0).2 = i0 ∧
    (Ellipsoid.intersect ell0 rayEMiss i0).2 = i0 := by
  refine ⟨C9_miss_leaves_interaction_unchanged.1 tri0 rayTMiss i0 ?_,
    C9_miss_leaves_interaction_unchanged.2.1 EPS0 rect0 rayRMiss i0 ?_,
    C9_miss_leaves_interaction_unchanged.2.2 ell0 rayEMiss i0 ?_⟩
  · norm_num [Triangle.intersect, tri0, rayTMiss, i0, Vec3.sub, Vec3.cross,
      Vec3.dot, Vec3.smul, Vec3.zero]
  · norm_num [Rectangle.intersect, rect0, rayRMiss, i0, EPS0, Vec3.sub,
      Vec3.cross, Vec3.dot, Vec3.smul, Vec3.zero, Vec3.norm, Vec3.normalized,
      Vec3.add, Ray.at, abs_le]
  · norm_num [Ellipsoid.intersect, ell0, rayEMiss, i0, Ellipsoid.delta,
      Ellipsoid.quadA, Ellipsoid.quadB, Ellipsoid.quadC,
      Ellipsoid.transformedOrigin, Ellipsoid.transformedDir, Ellipsoid.Minv,
      Ellipsoid.M, Ellipsoid.Tmat, Ellipsoid.Rmat, Ellipsoid.Smat, Aff.comp,
      Aff.inv, Aff.applyPoint, Aff.applyVec, Mat3.mul, Mat3.inv, Mat3.det,
      Mat3.id, Mat3.mulVec, Vec3.normalized, Vec3.norm, Vec3.dot, Vec3.smul,
      Vec3.add, Vec3.sub, Vec3.neg, Vec3.zero, Real.sqrt_one]

/-- Claim C3, amended: on a true return every primitive populates the
interaction fully (distance, position on the ray, GEOMETRY type, material
evaluated on the geometrically populated record); the hit is forward with
respect to `tMin` for Triangle, Ellipsoid and Ground, while Rectangle
only guarantees `distance ≥ 0` (its accept test uses `t >= 0`, not
`t >= ray.tMin`). -/
theorem C3_forward_hit_amended :
    (∀ (tri : Triangle) (ray : Ray) (i : Interaction),
        (Triangle.intersect tri ray i).1 = true →
        (Triangle.intersect tri ray i).2.distance ≥ ray.tMin ∧
        (Triangle.intersect tri ray i).2.position =
          ray.at (Triangle.intersect tri ray i).2.distance ∧
        (Triangle.intersect tri ray i).2.type = InterType.GEOMETRY ∧
        (Triangle.intersect tri ray i).2.matmodel =
          tri.material.evaluate
            { (Triangle.intersect tri ray i).2 with matmodel := i.matmodel }) ∧
    (∀ (e : Ellipsoid) (ray : Ray) (i : Interaction),
        (Ellipsoid.intersect e ray i).1 = true →
        (Ellipsoid.intersect e ray i).2.distance ≥ ray.tMin ∧
        (Ellipsoid.intersect e ray i).2.position =
          ray.at (Ellipsoid.intersect e ray i).2.distance ∧
        (Ellipsoid.intersect e ray i).2.type = InterType.GEOMETRY ∧
        (Ellipsoid.intersect e ray i).2.matmodel =
          e.material.evaluate
            { (Ellipsoid.intersect e ray i).2 with matmodel := i.matmodel }) ∧
    (∀ (g : Ground) (ray : Ray) (i : Interaction),
        (Ground.intersect g ray i).1 = true →
        (Ground.intersect g ray i).2.distance ≥ ray.tMin ∧
        (Ground.intersect g ray i).2.position =
          ray.at (Ground.intersect g ray i).2.distance ∧
        (Ground.intersect g ray i).2.type = InterType.GEOMETRY ∧
        (Ground.intersect g ray i).2.matmodel =
          g.material.evaluate
            { (Ground.intersect g ray i).2 with matmodel := i.matmodel }) ∧
    ∀ (EPS : ℝ) (rect : Rectangle) (ray : Ray) (i : Interaction),
      (Rectangle.intersect EPS rect ray i).1 = true →
      (Rectangle.intersect EPS rect ray i).2.distance ≥ 0 ∧
      (Rectangle.intersect EPS rect ray i).2.position =
        ray.at (Rectangle.intersect EPS rect ray i).2.distance ∧
      (Rectangle.intersect EPS rect ray i).2.type = InterType.GEOMETRY ∧
      (Rectangle.intersect EPS rect ray i).2.matmodel =
        rect.material.evaluate
          { (Rectangle.intersect EPS rect ray i).2 with matmodel := i.matmodel } := by
  refine ⟨?_, ?_, ?_, ?_⟩
  · intro tri ray i h
    simp only [Triangle.intersect] at h ⊢
    split_ifs at h ⊢ with hc
    exact ⟨hc.1, rfl, rfl, rfl⟩
  · intro e ray i h
    simp only [Ellipsoid.intersect] at h ⊢
    split_ifs at h ⊢ with hd
    cases hsel : e.selectT ray with
    | none => simp [hsel] at h
    | some t =>
      simp only [hsel, Option.elim_some] at h ⊢
      split_ifs at h ⊢ with ht
      exact ⟨le_of_not_lt ht, rfl, rfl, rfl⟩
  · intro g ray i h
    simp only [Ground.intersect] at h ⊢
    split_ifs at h ⊢ with ht
    exact ⟨le_of_not_lt ht, rfl, rfl, rfl⟩
  · intro EPS rect ray i h
    simp only [Rectangle.intersect] at h ⊢
    split_ifs at h ⊢ with hpar hc
    exact ⟨hc.1, rfl, rfl, rfl⟩

/-- Counterexample to claim C3 as stated: `Rectangle::intersect` accepts a
hit at `t = 1` on a ray whose `tMin` is `2`, so the returned distance is
below the ray's valid interval. -/
theorem C3_counterexample :
    (Rectangle.intersect EPS0 rect0 rayR i0).1 = true ∧
    (Rectangle.intersect EPS0 rect0 rayR i0).2.distance < rayR.tMin := by
  constructor <;>
    norm_num [Rectangle.intersect, rect0, rayR, i0, EPS0, Vec3.sub, Vec3.cross,
      Vec3.dot, Vec3.smul, Vec3.zero, Vec3.norm, Vec3.normalized, Vec3.add,
      Ray.at, abs_le, Real.sqrt_one]

/-- Claim C1: `Triangle::intersect` computes `(t, u, v)` by the
Möller–Trumbore solve `(t, u, v) = (1/(s1·e1)) · (s2·e2, s1·s, s2·d)` and
returns true iff `t ≥ tMin ∧ u ≥ 0 ∧ v ≥ 0 ∧ u + v ≤ 1`, in which case it
populates distance `t`, position `ray(t)` and the normalized precomputed
face normal (not interpolated from vertex normals).  Stated for a
nondegenerate denominator `s1·e1 ≠ 0` (with `s1·e1 = 0` the C++ float
computation produces non-finite `(t, u, v)` outside this real-valued
embedding; those rays never satisfy the acceptance test). -/
theorem C1_triangle_moller_trumbore (tri : Triangle) (ray : Ray) (i : Interaction)
    (hdenom : (ray.direction.cross (tri.v2.sub tri.v0)).dot (tri.v1.sub tri.v0) ≠ 0) :
    let e1 := tri.v1.sub tri.v0
    let e2 := tri.v2.sub tri.v0
    let s := ray.origin.sub tri.v0
    let s1 := ray.direction.cross e2
    let s2 := s.cross e1
    let t := 1 / s1.dot e1 * (s2.dot e2)
    let u := 1 / s1.dot e1 * (s1.dot s)
    let v := 1 / s1.dot e1 * (s2.dot ray.direction)
    ((Triangle.intersect tri ray i).1 = true ↔
      t ≥ ray.tMin ∧ u ≥ 0 ∧ v ≥ 0 ∧ u + v ≤ 1) ∧
    ((Triangle.intersect tri ray i).1 = true →
      (Triangle.intersect tri ray i).2 =
        { distance := t
          position := ray.at t
          normal := tri.normal.normalized
          matmodel := tri.material.evaluate
            { distance := t
              position := ray.at t
              normal := tri.normal.normalized
              matmodel := i.matmodel
              type := InterType.GEOMETRY }
          type := InterType.GEOMETRY }) := by
  intro e1 e2 s s1 s2 t u v
  constructor
  · simp only [Triangle.intersect]
    split_ifs with hc
    · exact iff_of_true rfl hc
    · exact iff_of_false (by simp) hc
  · intro h
    simp only [Triangle.intersect] at h ⊢
    split_ifs at h ⊢
    rfl

/-- Witness for claim C1: a concrete downward ray through `(1/4, 1/4)` hits
the unit right triangle. -/
theorem C1_triangle_moller_trumbore_witness :
    ((rayT.direction.cross (tri0.v2.sub tri0.v0)).dot (tri0.v1.sub tri0.v0) ≠ 0) ∧
    (Triangle.intersect tri0 rayT i0).1 = true :=
  ⟨by norm_num [tri0, rayT, Vec3.cross, Vec3.dot, Vec3.sub, Vec3.zero],
   (C1_triangle_moller_trumbore tri0 rayT i0
      (by norm_num [tri0, rayT, Vec3.cross, Vec3.dot, Vec3.sub, Vec3.zero])).1.mpr
    (by norm_num [tri0, rayT, Vec3.cross, Vec3.dot, Vec3.sub, Vec3.zero])⟩

/-- Claim C4: Ellipsoid root selection: after mapping the ray into
unit-sphere space (coefficients `quadA`, `quadB`, `quadC`, discriminant
`delta`, roots `t1 ≤ t2` of the quadratic), the intersection returns
false when `delta ≤ 0`; otherwise it selects the smaller root when both
are positive, else the single positive root, else returns false; and it
returns false when the selected `t < ray.tMin`.  Stated for a
nondegenerate transformed direction (`quadA ≠ 0`). -/
theorem C4_ellipsoid_root_selection (e : Ellipsoid) (ray : Ray) (i : Interaction)
    (ha : e.quadA ray ≠ 0) :
    (e.delta ray ≤ 0 → (Ellipsoid.intersect e ray i).1 = false) ∧
    (e.delta ray > 0 →
      e.quadA ray * e.t1 ray ^ 2 + e.quadB ray * e.t1 ray + e.quadC ray = 0 ∧
      e.quadA ray * e.t2 ray ^ 2 + e.quadB ray * e.t2 ray + e.quadC ray = 0 ∧
      e.t1 ray ≤ e.t2 ray) ∧
    (e.delta ray > 0 → e.t1 ray > 0 → e.t2 ray > 0 →
      min (e.t1 ray) (e.t2 ray) ≥ ray.tMin →
      (Ellipsoid.intersect e ray i).1 = true ∧
      (Ellipsoid.intersect e ray i).2.distance = min (e.t1 ray) (e.t2 ray)) ∧
    (e.delta ray > 0 → e.t1 ray > 0 → ¬e.t2 ray > 0 → e.t1 ray ≥ ray.tMin →
      (Ellipsoid.intersect e ray i).1 = true ∧
      (Ellipsoid.intersect e ray i).2.distance = e.t1 ray) ∧
    (e.delta ray > 0 → ¬e.t1 ray > 0 → e.t2 ray > 0 → e.t2 ray ≥ ray.tMin →
      (Ellipsoid.intersect e ray i).1 = true ∧
      (Ellipsoid.intersect e ray i).2.distance = e.t2 ray) ∧
    (e.delta ray > 0 → ¬e.t1 ray > 0 → ¬e.t2 ray > 0 →
      (Ellipsoid.intersect e ray i).1 = false) ∧
    (e.delta ray > 0 → ∀ t, e.selectT ray = some t → t < ray.tMin →
      (Ellipsoid.intersect e ray i).1 = false) := by
  have hApos : 0 < e.quadA ray :=
    lt_of_le_of_ne (Vec3.dot_self_nonneg _) (Ne.symm ha)
  refine ⟨?_, ?_, ?_, ?_, ?_, ?_, ?_⟩
  · intro hδ
    simp only [Ellipsoid.intersect]
    rw [if_neg (not_lt.mpr hδ)]
  · intro hδ
    have hd0 : 0 ≤ e.delta ray := le_of_lt hδ
    have hdeq : e.delta ray =
        e.quadB ray * e.quadB ray - 4 * e.quadA ray * e.quadC ray := rfl
    refine ⟨?_, ?_, ?_⟩
    · simpa only [Ellipsoid.t1] using
        quad_root_neg (e.quadA ray) (e.quadB ray) (e.quadC ray) (e.delta ray)
          ha hd0 hdeq
    · simpa only [Ellipsoid.t2] using
        quad_root_pos (e.quadA ray) (e.quadB ray) (e.quadC ray) (e.delta ray)
          ha hd0 hdeq
    · simp only [Ellipsoid.t1, Ellipsoid.t2]
      exact div_le_div_of_nonneg_right
        (by linarith [Real.sqrt_nonneg (e.delta ray)]) (by linarith)
  · intro hδ h1 h2 hmin
    have hsel : e.selectT ray = some (min (e.t1 ray) (e.t2 ray)) := by
      simp only [Ellipsoid.selectT]
      rw [if_pos ⟨h1, h2⟩]
    constructor <;>
      · simp only [Ellipsoid.intersect, if_pos hδ, hsel, Option.elim_some]
        rw [if_neg (not_lt.mpr hmin)]
  · intro hδ h1 h2 hge
    have hsel : e.selectT ray = some (e.t1 ray) := by
      simp only [Ellipsoid.selectT]
      rw [if_neg (fun hc => h2 hc.2), if_pos h1]
    constructor <;>
      · simp only [Ellipsoid.intersect, if_pos hδ, hsel, Option.elim_some]
        rw [if_neg (not_lt.mpr hge)]
  · intro hδ h1 h2 hge
    have hsel : e.selectT ray = some (e.t2 ray) := by
      simp only [Ellipsoid.selectT]
      rw [if_neg (fun hc => h1 hc.1), if_neg h1, if_pos h2]
    constructor <;>
      · simp only [Ellipsoid.intersect, if_pos hδ, hsel, Option.elim_some]
        rw [if_neg (not_lt.mpr hge)]
  · intro hδ h1 h2
    have hsel : e.selectT ray = none := by
      simp only [Ellipsoid.selectT]
      rw [if_neg (fun hc => h1 hc.1), if_neg h1, if_neg h2]
    simp only [Ellipsoid.intersect, if_pos hδ, hsel, Option.elim_none]
  · intro hδ t hsel hlt
    simp only [Ellipsoid.intersect, if_pos hδ, hsel, Option.elim_some]
    rw [if_pos hlt]

/-- Witness for claim C4: the unit sphere with a ray from `(0,0,2)` down
the axis has roots `1` and `3`; the smaller root `1` is selected and
accepted against `tMin = 1/2`. -/
theorem C4_ellipsoid_root_selection_witness :
    Ellipsoid.quadA ell0 rayE ≠ 0 ∧ Ellipsoid.delta ell0 rayE > 0 ∧
    Ellipsoid.t1 ell0 rayE > 0 ∧ Ellipsoid.t2 ell0 rayE > 0 ∧
    min (Ellipsoid.t1 ell0 rayE) (Ellipsoid.t2 ell0 rayE) ≥ rayE.tMin ∧
    ((Ellipsoid.intersect ell0 rayE i0).1 = true ∧
      (Ellipsoid.intersect ell0 rayE i0).2.distance =
        min (Ellipsoid.t1 ell0 rayE) (Ellipsoid.t2 ell0 rayE)) := by
  have ha : Ellipsoid.quadA ell0 rayE ≠ 0 := by rw [ell0_quadA]; norm_num
  have hδ : Ellipsoid.delta ell0 rayE > 0 := by rw [ell0_delta]; norm_num
  have h1 : Ellipsoid.t1 ell0 rayE > 0 := by rw [ell0_t1]; norm_num
  have h2 : Ellipsoid.t2 ell0 rayE > 0 := by rw [ell0_t2]; norm_num
  have hmin : min (Ellipsoid.t1 ell0 rayE) (Ellipsoid.t2 ell0 rayE) ≥ rayE.tMin := by
    rw [ell0_t1, ell0_t2]; norm_num [rayE, min_def]
  exact ⟨ha, hδ, h1, h2, hmin,
    (C4_ellipsoid_root_selection ell0 rayE i0 ha).2.2.1 hδ h1 h2 hmin⟩

/-- Claim C10: whenever a primitive's `intersect` returns true, the
populated interaction has a unit normal and type GEOMETRY (never LIGHT or
NONE).  Stated under the evident nondegeneracy conditions: the stored
normal of a Triangle/Rectangle, and the computed raw normal of an
Ellipsoid hit, are nonzero (a zero vector has no normalization). -/
theorem C10_hit_normal_unit_and_geometry :
    (∀ (tri : Triangle) (ray : Ray) (i : Interaction), tri.normal ≠ Vec3.zero →
        (Triangle.intersect tri ray i).1 = true →
        (Triangle.intersect tri ray i).2.normal.norm = 1 ∧
        (Triangle.intersect tri ray i).2.type = InterType.GEOMETRY) ∧
    (∀ (EPS : ℝ) (rect : Rectangle) (ray : Ray) (i : Interaction),
        rect.normal ≠ Vec3.zero →
        (Rectangle.intersect EPS rect ray i).1 = true →
        (Rectangle.intersect EPS rect ray i).2.normal.norm = 1 ∧
        (Rectangle.intersect EPS rect ray i).2.type = InterType.GEOMETRY) ∧
    (∀ (e : Ellipsoid) (ray : Ray) (i : Interaction),
        (∀ t, e.selectT ray = some t → e.rawNormal ray t ≠ Vec3.zero) →
        (Ellipsoid.intersect e ray i).1 = true →
        (Ellipsoid.intersect e ray i).2.normal.norm = 1 ∧
        (Ellipsoid.intersect e ray i).2.type = InterType.GEOMETRY) ∧
    ∀ (g : Ground) (ray : Ray) (i : Interaction),
      (Ground.intersect g ray i).1 = true →
      (Ground.intersect g ray i).2.normal.norm = 1 ∧
      (Ground.intersect g ray i).2.type = InterType.GEOMETRY := by
  refine ⟨?_, ?_, ?_, ?_⟩
  · intro tri ray i hn h
    simp only [Triangle.intersect] at h ⊢
    split_ifs at h ⊢
    exact ⟨Vec3.norm_normalized tri.normal hn, rfl⟩
  · intro EPS rect ray i hn h
    simp only [Rectangle.intersect] at h ⊢
    split_ifs at h ⊢
    exact ⟨Vec3.norm_normalized rect.normal hn, rfl⟩
  · intro e ray i hn h
    simp only [Ellipsoid.intersect] at h ⊢
    split_ifs at h ⊢ with hd
    cases hsel : e.selectT ray with
    | none => simp [hsel] at h
    | some t =>
      simp only [hsel, Option.elim_some] at h ⊢
      split_ifs at h ⊢ with ht
      exact ⟨Vec3.norm_normalized _ (hn t hsel), rfl⟩
  · intro g ray i h
    simp only [Ground.intersect] at h ⊢
    split_ifs at h ⊢
    refine ⟨?_, rfl⟩
    show Vec3.norm ⟨0, 0, 1⟩ = 1
    norm_num [Vec3.norm, Vec3.dot, Real.sqrt_one]

/-- Witness for claim C10: concrete hits on all four primitives with unit
normals and GEOMETRY type. -/
theorem C10_hit_normal_unit_and_geometry_witness :
    (tri0.normal ≠ Vec3.zero ∧ (Triangle.intersect tri0 rayT i0).1 = true ∧
      ((Triangle.intersect tri0 rayT i0).2.normal.norm = 1 ∧
        (Triangle.intersect tri0 rayT i0).2.type = InterType.GEOMETRY)) ∧
    (rect0.normal ≠ Vec3.zero ∧ (Rectangle.intersect EPS0 rect0 rayR i0).1 = true ∧
      ((Rectangle.intersect EPS0 rect0 rayR i0).2.normal.norm = 1 ∧
        (Rectangle.intersect EPS0 rect0 rayR i0).2.type = InterType.GEOMETRY)) ∧
    ((∀ t, Ellipsoid.selectT ell0 rayE = some t →
        Ellipsoid.rawNormal ell0 rayE t ≠ Vec3.zero) ∧
      (Ellipsoid.intersect ell0 rayE i0).1 = true ∧
      ((Ellipsoid.intersect ell0 rayE i0).2.normal.norm = 1 ∧
        (Ellipsoid.intersect ell0 rayE i0).2.type = InterType.GEOMETRY)) ∧
    ((Ground.intersect ground0 rayG i0).1 = true ∧
      ((Ground.intersect ground0 rayG i0).2.normal.norm = 1 ∧
        (Ground.intersect ground0 rayG i0).2.type = InterType.GEOMETRY)) := by
  have htn : tri0.normal ≠ Vec3.zero := by
    norm_num [tri0, Vec3.zero, Vec3.mk.injEq]
  have hth : (Triangle.intersect tri0 rayT i0).1 = true := by
    norm_num [Triangle.intersect, tri0, rayT, i0, Vec3.cross, Vec3.dot,
      Vec3.sub, Vec3.smul, Vec3.zero]
  have hrn : rect0.normal ≠ Vec3.zero := by
    norm_num [rect0, Vec3.zero, Vec3.mk.injEq]
  have hrh : (Rectangle.intersect EPS0 rect0 rayR i0).1 = true := by
    norm_num [Rectangle.intersect, rect0, rayR, i0, EPS0, Vec3.sub, Vec3.cross,
      Vec3.dot, Vec3.smul, Vec3.zero, Vec3.norm, Vec3.normalized, Vec3.add,
      Ray.at, abs_le, Real.sqrt_one]
  have hen : ∀ t, Ellipsoid.selectT ell0 rayE = some t →
      Ellipsoid.rawNormal ell0 rayE t ≠ Vec3.zero := by
    intro t ht
    rw [ell0_selectT] at ht
    have : t = 1 := by injection ht with h; exact h.symm
    subst this
    rw [ell0_rawNormal]
    norm_num [Vec3.zero, Vec3.mk.injEq]
  have hgh : (Ground.intersect ground0 rayG i0).1 = true := by
    norm_num [Ground.intersect, ground0, rayG, i0]
  exact ⟨⟨htn, hth, C10_hit_normal_unit_and_geometry.1 tri0 rayT i0 htn hth⟩,
    ⟨hrn, hrh, C10_hit_normal_unit_and_geometry.2.1 EPS0 rect0 rayR i0 hrn hrh⟩,
    ⟨hen, ell0_hit.1,
      C10_hit_normal_unit_and_geometry.2.2.1 ell0 rayE i0 hen ell0_hit.1⟩,
    ⟨hgh, C10_hit_normal_unit_and_geometry.2.2.2 ground0 rayG i0 hgh⟩⟩

/-- Counterexample to claim C7 as stated: a horizontal ray (`direction.z =
0`) below the ground plane is *not* rejected — under IEEE semantics the
division yields `t = +inf`, which passes the `t < tMin` test, and
`Ground::intersect` returns true. -/
theorem C7_horizontal_ground_counterexample :
    Ground.intersectFP 1 0 0 (1 / 100000) = true := by
  norm_num [Ground.intersectFP, fdivIEEE, fltF]

/-- Claim C7, amended: for a horizontal ray (`direction.z = 0`, the
positive zero of a float literal), `Ground::intersect` under IEEE
semantics computes `t = ±inf` (or `NaN` when the plane contains the
origin's height) and returns false only when `h − origin.z < 0`
(`t = −inf`); when `h − origin.z ≥ 0` the `t < tMin` test does not reject
`+inf`/`NaN` and the function returns true. -/
theorem C7_horizontal_ground_amended (z originz tmin : ℚ) :
    Ground.intersectFP z originz 0 tmin = decide (0 ≤ z - originz) := by
  simp only [Ground.intersectFP, fdivIEEE, if_pos rfl]
  rcases lt_trichotomy (z - originz) 0 with hlt | heq | hgt
  · rw [if_neg (by linarith : ¬z - originz > 0), if_pos hlt]
    simp [fltF, not_le.mpr hlt]
  · rw [if_neg (by linarith : ¬z - originz > 0), if_neg (by linarith : ¬z - originz < 0)]
    simp [fltF, heq]
  · rw [if_pos hgt]
    simp [fltF, le_of_lt hgt]

/-- Witness for claim C3 (amended): a concrete Ground hit satisfying the
forward-hit contract. -/
theorem C3_forward_hit_witness :
    (Ground.intersect ground0 rayG i0).1 = true ∧
    ((Ground.intersect ground0 rayG i0).2.distance ≥ rayG.tMin ∧
      (Ground.intersect ground0 rayG i0).2.position =
        rayG.at (Ground.intersect ground0 rayG i0).2.distance ∧
      (Ground.intersect ground0 rayG i0).2.type = InterType.GEOMETRY ∧
      (Ground.intersect ground0 rayG i0).2.matmodel =
        ground0.material.evaluate
          { (Ground.intersect ground0 rayG i0).2 with matmodel := i0.matmodel }) := by
  have h : (Ground.intersect ground0 rayG i0).1 = true := by
    norm_num [Ground.intersect, ground0, rayG, i0]
  exact ⟨h, C3_forward_hit_amended.2.2.1 ground0 rayG i0 h⟩

end HypoxRM
